import Mathlib

/-!
Verification of the baseline-comparison tooling (print_baselines / compare_baselines).

This file gives a shallow embedding, in Lean 4, of the code in
`tools/print_baselines/utils/types.py`, `tools/print_baselines/utils/parser.py`,
`tools/print_baselines/utils/git_worktree.py`, `tools/compare_baselines/main.py`
and `tools/compare_baselines/output_images.py`, together with theorems settling
the specification claims about that code.

Modelling conventions:
* Python exceptions become an explicit `Err` value returned through `Except`.
  The Python code raises bare `Exception`/`AssertionError`/`KeyError`; the
  specification's error taxonomy assigns names to these conditions, and the
  `Err` constructors follow that taxonomy: `Exception("Malformed baseline
  file")` and the statistic-kind `assert` map to `Err.malformedBaseline`,
  the `Exception("Unknown ...")` raises of the token parsers and the
  `MODELCODE` dictionary miss map to `Err.unknownToken`, dictionary lookups
  on data keys (`instances`, `model`, `baselines`, `cpus`) map to
  `Err.keyError`, and duck-typing failures (iterating / indexing a non-dict)
  map to `Err.typeError`.
* JSON documents are the inductive type `Json`; JSON objects are ordered
  association lists, matching the insertion-ordered dictionaries produced by
  Python's `json.load`.
* Python dictionary assignment `d[k] = v` is `upsert`, which replaces the
  value in place when the key is present and appends otherwise, matching
  Python's dictionary ordering semantics.
* Numeric JSON values are rationals (`ℚ`); the code performs only exact
  arithmetic (a division and a subtraction) on them.
-/

/-- Error taxonomy from the specification, covering every raise site of the
embedded Python code. -/
inductive Err where
  | malformedBaseline
  | unknownToken (tok : String)
  | keyError (key : String)
  | typeError
deriving DecidableEq

/-- Association-list lookup: first binding wins, as for keys of a Python
dictionary (which are unique). -/
def alist_lookup {α β : Type} [DecidableEq α] : List (α × β) → α → Option β
  | [], _ => none
  | (k, v) :: rest, key => if k = key then some v else alist_lookup rest key

/-- Python dictionary assignment `d[k] = v`: replace in place if the key is
present, append at the end otherwise. -/
def upsert {α β : Type} [DecidableEq α] (k : α) (v : β) : List (α × β) → List (α × β)
  | [] => [(k, v)]
  | (k1, v1) :: rest => if k1 = k then (k, v) :: rest else (k1, v1) :: upsert k v rest

/-- CpuModel enumeration from `utils/types.py`. -/
inductive CpuModel where
  | SKY_LAKE
  | CASCADE_LAKE
  | ICE_LAKE
  | MILAN
  | GRAVITON2
  | GRAVITON3
  | GRAVITON4
deriving DecidableEq

/-- Display string of a `CpuModel` (`CpuModel.__str__`). -/
def CpuModel.str : CpuModel → String
  | .SKY_LAKE => "SkyLake"
  | .CASCADE_LAKE => "CascadeLake"
  | .ICE_LAKE => "IceLake"
  | .MILAN => "Milan"
  | .GRAVITON2 => "Graviton2"
  | .GRAVITON3 => "Graviton3"
  | .GRAVITON4 => "Graviton4"

/-- The `MODELCODE` dictionary of `CpuModel.from_str`: (instance type, CPU
description string) pairs resolving to a CPU model. -/
def MODELCODE : List ((String × String) × CpuModel) :=
  [(("m5d.metal", "Intel(R) Xeon(R) Platinum 8175M CPU @ 2.50GHz"), .SKY_LAKE),
   (("m5d.metal", "Intel(R) Xeon(R) Platinum 8259CL CPU @ 2.50GHz"), .CASCADE_LAKE),
   (("m6i.metal", "Intel(R) Xeon(R) Platinum 8375C CPU @ 2.90GHz"), .ICE_LAKE),
   (("m6a.metal", "AMD EPYC 7R13 48-Core Processor"), .MILAN),
   (("m6g.metal", "ARM_NEOVERSE_N1"), .GRAVITON2),
   (("m6g.metal", "ARM_NEOVERSE_V1"), .GRAVITON3),
   (("c7g.metal", "ARM_NEOVERSE_V1"), .GRAVITON4)]

/-- CpuModel.from_str(instance_type, model): the `MODELCODE` dictionary
lookup. A miss raises (Python: `KeyError`; the specification taxonomy files
an unresolvable CPU pair under `UnknownTokenError`). -/
def CpuModel.from_str (instance_type model : String) : Except Err CpuModel :=
  match alist_lookup MODELCODE (instance_type, model) with
  | some m => .ok m
  | none => .error (.unknownToken (instance_type ++ "/" ++ model))

/-- Lowercasing of a string, character by character, as `str.lower()` does on
the ASCII codenames the code deals with. -/
def str_lower (s : String) : String := String.mk (s.data.map Char.toLower)

/-- Body of `CpuModel.from_codename` after the initial `name = name.lower()`
assignment: the chain of comparisons against the seven known codenames, with
a raise (carrying the lowered name) at the end. -/
def CpuModel.of_lower (name : String) : Except Err CpuModel :=
  if name = "skylake" then .ok .SKY_LAKE
  else if name = "cascadelake" then .ok .CASCADE_LAKE
  else if name = "icelake" then .ok .ICE_LAKE
  else if name = "milan" then .ok .MILAN
  else if name = "graviton2" then .ok .GRAVITON2
  else if name = "graviton3" then .ok .GRAVITON3
  else if name = "graviton4" then .ok .GRAVITON4
  else .error (.unknownToken name)

/-- CpuModel.from_codename: lowercases its argument and matches it against
the seven known codenames; anything else raises. -/
def CpuModel.from_codename (s : String) : Except Err CpuModel :=
  CpuModel.of_lower (str_lower s)

/-- GuestOs enumeration from `utils/types.py`. -/
inductive GuestOs where
  | UBUNTU_18_04
deriving DecidableEq

/-- Display string of a `GuestOs` (`GuestOs.__str__`). -/
def GuestOs.str : GuestOs → String
  | .UBUNTU_18_04 => "Ubuntu 18.04"

/-- GuestOs.from_str: maps the raw rootfs token to the enumeration value. -/
def GuestOs.from_str (raw_str : String) : Except Err GuestOs :=
  if raw_str = "ubuntu-18.04.ext4" then .ok .UBUNTU_18_04
  else .error (.unknownToken raw_str)

/-- MachineConfig enumeration from `utils/types.py`. -/
inductive MachineConfig where
  | VCPU_1_MEM_1G
  | VCPU_2_MEM_1G
deriving DecidableEq

/-- Display string of a `MachineConfig` (`MachineConfig.__str__`). -/
def MachineConfig.str : MachineConfig → String
  | .VCPU_1_MEM_1G => "1vcpu_1024mb"
  | .VCPU_2_MEM_1G => "2vcpu_1024mb"

/-- MachineConfig.from_str: maps the raw `<config>.json` token to the
enumeration value. -/
def MachineConfig.from_str (raw_str : String) : Except Err MachineConfig :=
  if raw_str = "1vcpu_1024mb.json" then .ok .VCPU_1_MEM_1G
  else if raw_str = "2vcpu_1024mb.json" then .ok .VCPU_2_MEM_1G
  else .error (.unknownToken raw_str)

/-- Metric enumeration from `utils/types.py`. -/
inductive Metric where
  | CPU_TOTAL
  | CPU_IO
  | THROUGHPUT
deriving DecidableEq

/-- Display string of a `Metric` (`Metric.__str__`). -/
def Metric.str : Metric → String
  | .CPU_TOTAL => "cpu_utilization_vcpus_total"
  | Metric.CPU_IO => "cpu_utilization_vmm"
  | .THROUGHPUT => "throughput"

/-- Metric.from_str: maps the raw metric token to the enumeration value. -/
def Metric.from_str (raw_str : String) : Except Err Metric :=
  if raw_str = "cpu_utilization_vcpus_total" then .ok .CPU_TOTAL
  else if raw_str = "cpu_utilization_vmm" then .ok Metric.CPU_IO
  else if raw_str = "throughput" then .ok .THROUGHPUT
  else .error (.unknownToken raw_str)

/-- KernelVersion enumeration from `utils/types.py`. -/
inductive KernelVersion where
  | KERNEL_5_10
  | KERNEL_4_14
deriving DecidableEq

/-- Display string of a `KernelVersion` (`KernelVersion.__str__`). -/
def KernelVersion.str : KernelVersion → String
  | .KERNEL_5_10 => "5.10"
  | .KERNEL_4_14 => "4.14"

/-- KernelVersion.from_str: both the numeric version string and the binary
filename map to the same enumeration value. -/
def KernelVersion.from_str (raw_str : String) : Except Err KernelVersion :=
  if raw_str = "5.10" ∨ raw_str = "vmlinux-5.10.bin" then .ok .KERNEL_5_10
  else if raw_str = "4.14" ∨ raw_str = "vmlinux-4.14.bin" then .ok .KERNEL_4_14
  else .error (.unknownToken raw_str)

/-- Value of `Char.ofNat` at a valid code point. -/
theorem char_toNat_ofNat_valid {m : Nat} (h : m.isValidChar) :
    (Char.ofNat m).toNat = m := by
  rw [Char.ofNat, dif_pos h]
  rfl

/-- The `toNat` value of `Char.toLower c` when `c` is an ASCII capital. -/
theorem toLower_toNat_of_upper {c : Char} (h : 65 ≤ c.toNat ∧ c.toNat ≤ 90) :
    c.toLower.toNat = c.toNat + 32 := by
  have hv : (c.toNat + 32).isValidChar := Or.inl (by omega)
  simp only [Char.toLower, ge_iff_le]
  rw [if_pos ⟨h.1, h.2⟩]
  exact char_toNat_ofNat_valid hv

/-- ASCII lowercasing is idempotent character-wise. -/
theorem toLower_idem (c : Char) : c.toLower.toLower = c.toLower := by
  by_cases h : 65 ≤ c.toNat ∧ c.toNat ≤ 90
  · have h1 : c.toLower.toNat = c.toNat + 32 := toLower_toNat_of_upper h
    simp only [Char.toLower, ge_iff_le] at h1 ⊢
    rw [if_neg]
    omega
  · have h1 : c.toLower = c := by
      simp only [Char.toLower, ge_iff_le]
      rw [if_neg]
      omega
    rw [h1, h1]

/-- Lowercasing a string twice is the same as lowercasing it once. -/
theorem str_lower_idem (s : String) : str_lower (str_lower s) = str_lower s := by
  simp only [str_lower, List.map_map]
  congr 1
  exact List.map_congr_left fun c _ => toLower_idem c

/-- The seven lowercased codenames accepted by `CpuModel.from_codename`. -/
def cpu_codenames : List String :=
  ["skylake", "cascadelake", "icelake", "milan", "graviton2", "graviton3", "graviton4"]

/-- The codename chain returns the raise value exactly on names outside the
seven known codenames. -/
theorem of_lower_error_iff (name : String) :
    CpuModel.of_lower name = .error (.unknownToken name) ↔ name ∉ cpu_codenames := by
  by_cases h1 : name = "skylake"
  · subst h1; simp [CpuModel.of_lower, cpu_codenames]
  · by_cases h2 : name = "cascadelake"
    · subst h2; simp [CpuModel.of_lower, cpu_codenames]
    · by_cases h3 : name = "icelake"
      · subst h3; simp [CpuModel.of_lower, cpu_codenames]
      · by_cases h4 : name = "milan"
        · subst h4; simp [CpuModel.of_lower, cpu_codenames]
        · by_cases h5 : name = "graviton2"
          · subst h5; simp [CpuModel.of_lower, cpu_codenames]
          · by_cases h6 : name = "graviton3"
            · subst h6; simp [CpuModel.of_lower, cpu_codenames]
            · by_cases h7 : name = "graviton4"
              · subst h7; simp [CpuModel.of_lower, cpu_codenames]
              · simp [CpuModel.of_lower, cpu_codenames, h1, h2, h3, h4, h5, h6, h7]

/-- Claim C2 counterexample: the display-string round-trip fails for
`GuestOs` and `MachineConfig`. Parsing the display string `"Ubuntu 18.04"`
of `GuestOs.UBUNTU_18_04` (and `"1vcpu_1024mb"` of
`MachineConfig.VCPU_1_MEM_1G`) raises instead of returning the value, because
`from_str` of these two types accepts the raw JSON tokens
(`"ubuntu-18.04.ext4"`, `"1vcpu_1024mb.json"`), not the display strings. -/
theorem C2_counterexample :
    GuestOs.from_str (GuestOs.str .UBUNTU_18_04) = .error (.unknownToken "Ubuntu 18.04")
    ∧ MachineConfig.from_str (MachineConfig.str .VCPU_1_MEM_1G)
        = .error (.unknownToken "1vcpu_1024mb") :=
  ⟨rfl, rfl⟩

/-- Claim C2 (amended): the round-trip `to_canonical (to_external v) = v`
holds for `CpuModel` (via `from_codename`), `Metric` and `KernelVersion`; for
`GuestOs` and `MachineConfig` the display string is not parseable (parsing it
raises), and `from_str` instead inverts the raw JSON tokens
(`"ubuntu-18.04.ext4"`, `"1vcpu_1024mb.json"`, `"2vcpu_1024mb.json"`). -/
theorem C2_roundtrip_amended :
    (∀ v : CpuModel, CpuModel.from_codename v.str = .ok v)
    ∧ (∀ v : Metric, Metric.from_str v.str = .ok v)
    ∧ (∀ v : KernelVersion, KernelVersion.from_str v.str = .ok v)
    ∧ (∀ v : GuestOs, GuestOs.from_str v.str = .error (.unknownToken v.str))
    ∧ (∀ v : MachineConfig, MachineConfig.from_str v.str = .error (.unknownToken v.str))
    ∧ GuestOs.from_str "ubuntu-18.04.ext4" = .ok .UBUNTU_18_04
    ∧ MachineConfig.from_str "1vcpu_1024mb.json" = .ok .VCPU_1_MEM_1G
    ∧ MachineConfig.from_str "2vcpu_1024mb.json" = .ok .VCPU_2_MEM_1G := by
  refine ⟨fun v => ?_, fun v => ?_, fun v => ?_, fun v => ?_, fun v => ?_, rfl, rfl, rfl⟩
  all_goals cases v <;> rfl

/-- Claim C5: an external token with no canonical mapping makes every
dimension parser return the unknown-token error rather than any value. -/
theorem C5_unknown_tokens_fail :
    (∀ s, str_lower s ∉ cpu_codenames →
        CpuModel.from_codename s = .error (.unknownToken (str_lower s)))
    ∧ (∀ s, s ≠ "ubuntu-18.04.ext4" → GuestOs.from_str s = .error (.unknownToken s))
    ∧ (∀ s, s ∉ ["1vcpu_1024mb.json", "2vcpu_1024mb.json"] →
        MachineConfig.from_str s = .error (.unknownToken s))
    ∧ (∀ s, s ∉ ["cpu_utilization_vcpus_total", "cpu_utilization_vmm", "throughput"] →
        Metric.from_str s = .error (.unknownToken s))
    ∧ (∀ s, s ∉ ["5.10", "vmlinux-5.10.bin", "4.14", "vmlinux-4.14.bin"] →
        KernelVersion.from_str s = .error (.unknownToken s))
    ∧ (∀ it m, alist_lookup MODELCODE (it, m) = none →
        CpuModel.from_str it m = .error (.unknownToken (it ++ "/" ++ m))) := by
  refine ⟨fun s hs => ?_, fun s hs => ?_, fun s hs => ?_, fun s hs => ?_, fun s hs => ?_,
    fun it m h => ?_⟩
  · exact (of_lower_error_iff (str_lower s)).mpr hs
  · simp [GuestOs.from_str, hs]
  · simp only [List.mem_cons, List.not_mem_nil, or_false, not_or] at hs
    simp [MachineConfig.from_str, hs.1, hs.2]
  · simp only [List.mem_cons, List.not_mem_nil, or_false, not_or] at hs
    simp [Metric.from_str, hs.1, hs.2.1, hs.2.2]
  · simp only [List.mem_cons, List.not_mem_nil, or_false, not_or] at hs
    simp [KernelVersion.from_str, hs.1, hs.2.1, hs.2.2.1, hs.2.2.2]
  · simp [CpuModel.from_str, h]

/-- Claim C5 witness: concrete unknown tokens are rejected by every parser. -/
theorem C5_witness :
    CpuModel.from_codename "pentium" = .error (.unknownToken "pentium")
    ∧ GuestOs.from_str "debian-12.ext4" = .error (.unknownToken "debian-12.ext4")
    ∧ MachineConfig.from_str "4vcpu_4096mb.json" = .error (.unknownToken "4vcpu_4096mb.json")
    ∧ Metric.from_str "latency" = .error (.unknownToken "latency")
    ∧ KernelVersion.from_str "6.1" = .error (.unknownToken "6.1")
    ∧ CpuModel.from_str "t2.micro" "Intel" = .error (.unknownToken "t2.micro/Intel") :=
  ⟨C5_unknown_tokens_fail.1 "pentium" (by decide),
   C5_unknown_tokens_fail.2.1 "debian-12.ext4" (by decide),
   C5_unknown_tokens_fail.2.2.1 "4vcpu_4096mb.json" (by decide),
   C5_unknown_tokens_fail.2.2.2.1 "latency" (by decide),
   C5_unknown_tokens_fail.2.2.2.2.1 "6.1" (by decide),
   C5_unknown_tokens_fail.2.2.2.2.2 "t2.micro" "Intel" (by decide)⟩

/-- Claim C8: the numeric version string and the binary filename both map to
the same `KernelVersion` value, for both known kernels. -/
theorem C8_kernel_spellings :
    KernelVersion.from_str "5.10" = .ok .KERNEL_5_10
    ∧ KernelVersion.from_str "vmlinux-5.10.bin" = .ok .KERNEL_5_10
    ∧ KernelVersion.from_str "4.14" = .ok .KERNEL_4_14
    ∧ KernelVersion.from_str "vmlinux-4.14.bin" = .ok .KERNEL_4_14 :=
  ⟨rfl, rfl, rfl, rfl⟩

/-- Claim C9: `CpuModel.from_codename` is case-insensitive (it agrees with
itself on the lowercased input), it raises exactly when the lowercased string
is not one of the seven known codenames, and the three spellings `"SkyLake"`,
`"SKYLAKE"`, `"skylake"` all resolve to the same model. -/
theorem C9_from_codename_case_insensitive :
    (∀ s, CpuModel.from_codename s = CpuModel.from_codename (str_lower s))
    ∧ (∀ s, CpuModel.from_codename s = .error (.unknownToken (str_lower s)) ↔
        str_lower s ∉ cpu_codenames)
    ∧ CpuModel.from_codename "SkyLake" = .ok .SKY_LAKE
    ∧ CpuModel.from_codename "SKYLAKE" = .ok .SKY_LAKE
    ∧ CpuModel.from_codename "skylake" = .ok .SKY_LAKE := by
  refine ⟨fun s => ?_, fun s => ?_, rfl, rfl, rfl⟩
  · simp only [CpuModel.from_codename, str_lower_idem]
  · exact of_lower_error_iff (str_lower s)

/-- JSON values as produced by `json.load`: objects are insertion-ordered
association lists. -/
inductive Json where
  | num (q : ℚ)
  | str (s : String)
  | bool (b : Bool)
  | null
  | arr (elems : List Json)
  | obj (fields : List (String × Json))

/-- Machine-configuration level of the parsed tree: the per-config container
filled in by the caller-supplied extraction function. -/
abbrev McMap := List (MachineConfig × Json)

/-- Guest-OS level of the parsed tree. -/
abbrev OsMap := List (GuestOs × McMap)

/-- Guest-kernel level of the parsed tree. -/
abbrev KMap := List (KernelVersion × OsMap)

/-- Metric level of the parsed tree. -/
abbrev MetMap := List (Metric × KMap)

/-- CPU-model level of the parsed tree: the `self._instances` dictionary. -/
abbrev InstMap := List (CpuModel × MetMap)

/-- State built by `BaselineParser.__init__`: document metadata (everything
except `hosts`), the raw `hosts.instances` subtree, the (initially empty)
parsed instances dictionary, the host kernel and the git version. -/
structure BaselineParserState where
  _meta : List (String × Json)
  _baselines : Json
  _instances : InstMap
  _host_kernel : KernelVersion
  _git_version : String

/-- BaselineParser.__init__ on an already-decoded document: requires the
top-level `hosts` key (else the "Malformed baseline file" raise), keeps the
other top-level entries as metadata, and stores `raw["hosts"]["instances"]`
(a missing `instances` key is a `KeyError`). -/
def BaselineParser.init (raw : Json) (host_kernel : KernelVersion) (git_version : String) :
    Except Err BaselineParserState :=
  match raw with
  | .obj kvs =>
    match alist_lookup kvs "hosts" with
    | none => .error .malformedBaseline
    | some hostsVal =>
      match hostsVal with
      | .obj host_fields =>
        match alist_lookup host_fields "instances" with
        | none => .error (.keyError "instances")
        | some inst =>
          .ok { _meta := kvs.filter (fun p => p.1 != "hosts"),
                _baselines := inst,
                _instances := [],
                _host_kernel := host_kernel,
                _git_version := git_version }
      | _ => .error .typeError
  | _ => .error .typeError

/-- One iteration of the inner dictionary-building loops of `_parse_data`:
process one raw entry into a key/value pair for the dictionary being built,
inserting with Python dictionary-assignment semantics, and abort on the first
raise. -/
def foldParse {σ κ χ : Type} [DecidableEq κ] (step : σ → Except Err (κ × χ)) :
    List σ → List (κ × χ) → Except Err (List (κ × χ))
  | [], acc => .ok acc
  | s :: rest, acc =>
    match step s with
    | .error e => .error e
    | .ok (k, v) => foldParse step rest (upsert k v acc)

/-- Body of the `config` loop of `_parse_data`: list the keys of the
configuration leaf, assert there is exactly one (the statistic kind) — the
specification files a failure of this assert under `MalformedBaselineError` —
take its value as `data`, resolve the config token, and run the
caller-supplied extraction function on `data`. -/
def config_step (cb : Json → Except Err Json) (p : String × Json) :
    Except Err (MachineConfig × Json) :=
  match p.2 with
  | .obj [(_, data)] =>
    (match MachineConfig.from_str p.1 with
     | .error e => .error e
     | .ok mc =>
       match cb data with
       | .error e => .error e
       | .ok sub => .ok (mc, sub))
  | .obj _ => .error .malformedBaseline
  | _ => .error .typeError

/-- Body of the `userspace` loop of `_parse_data`: build the machine-config
dictionary for this OS, then resolve the OS token (in this order, as in the
source). -/
def us_step (cb : Json → Except Err Json) (p : String × Json) :
    Except Err (GuestOs × McMap) :=
  match p.2 with
  | .obj configs =>
    match foldParse (config_step cb) configs [] with
    | .error e => .error e
    | .ok mc =>
      match GuestOs.from_str p.1 with
      | .error e => .error e
      | .ok os => .ok (os, mc)
  | _ => .error .typeError

/-- Body of the `guest_kernel` loop of `_parse_data`. -/
def kernel_step (cb : Json → Except Err Json) (p : String × Json) :
    Except Err (KernelVersion × OsMap) :=
  match p.2 with
  | .obj userspaces =>
    match foldParse (us_step cb) userspaces [] with
    | .error e => .error e
    | .ok osm =>
      match KernelVersion.from_str p.1 with
      | .error e => .error e
      | .ok kv => .ok (kv, osm)
  | _ => .error .typeError

/-- Body of the `metric` loop of `_parse_data`. -/
def metric_step (cb : Json → Except Err Json) (p : String × Json) :
    Except Err (Metric × KMap) :=
  match p.2 with
  | .obj kernels =>
    match foldParse (kernel_step cb) kernels [] with
    | .error e => .error e
    | .ok ks =>
      match Metric.from_str p.1 with
      | .error e => .error e
      | .ok m => .ok (m, ks)
  | _ => .error .typeError

/-- Body of the `cpu` loop of `_parse_data`: read `model` and `baselines`,
build the metrics dictionary, then resolve the (instance type, model) pair. -/
def cpu_step (cb : Json → Except Err Json) (instance_type : String) (cpuJson : Json) :
    Except Err (CpuModel × MetMap) :=
  match cpuJson with
  | .obj fields =>
    (match alist_lookup fields "model" with
     | none => .error (.keyError "model")
     | some (.str model) =>
       (match alist_lookup fields "baselines" with
        | none => .error (.keyError "baselines")
        | some (.obj baselines) =>
          (match foldParse (metric_step cb) baselines [] with
           | .error e => .error e
           | .ok mets =>
             match CpuModel.from_str instance_type model with
             | .error e => .error e
             | .ok cm => .ok (cm, mets))
        | some _ => .error .typeError)
     | some _ => .error .typeError)
  | _ => .error .typeError

/-- Outer instance loop of `_parse_data`: every CPU entry of every instance
type is inserted into the single shared `self._instances` dictionary. -/
def parse_instances (cb : Json → Except Err Json) :
    List (String × Json) → InstMap → Except Err InstMap
  | [], acc => .ok acc
  | (instance_type, instData) :: rest, acc =>
    match instData with
    | .obj fields =>
      (match alist_lookup fields "cpus" with
       | none => .error (.keyError "cpus")
       | some (.arr cpus) =>
         (match foldParse (cpu_step cb instance_type) cpus acc with
          | .error e => .error e
          | .ok acc2 => parse_instances cb rest acc2)
       | some _ => .error .typeError)
    | _ => .error .typeError

/-- BaselineParser._parse_data(parser): rebuild `hosts.instances` into the
typed coordinate tree, using the caller-supplied extraction function `cb` on
each statistic-kind payload. -/
def BaselineParser._parse_data (cb : Json → Except Err Json) (st : BaselineParserState) :
    Except Err InstMap :=
  match st._baselines with
  | .obj instances => parse_instances cb instances []
  | _ => .error .typeError

/-- Whole load pipeline: `__init__` followed by `_parse_data`. -/
def load_baselines (cb : Json → Except Err Json) (raw : Json) (hk : KernelVersion)
    (gv : String) : Except Err InstMap :=
  match BaselineParser.init raw hk gv with
  | .error e => .error e
  | .ok st => BaselineParser._parse_data cb st

/-- Claim C4: a top-level document without the `hosts` key makes construction
fail with the malformed-baseline error; when construction succeeds, the
metadata is exactly the top-level entries other than `hosts`, and the stored
baseline data is exactly `hosts.instances`. -/
theorem C4_hosts_key :
    (∀ kvs hk gv, alist_lookup kvs "hosts" = none →
        BaselineParser.init (.obj kvs) hk gv = .error .malformedBaseline)
    ∧ (∀ raw hk gv st, BaselineParser.init raw hk gv = .ok st →
        ∃ kvs host_fields,
          raw = .obj kvs
          ∧ st._meta = kvs.filter (fun p => p.1 != "hosts")
          ∧ alist_lookup kvs "hosts" = some (.obj host_fields)
          ∧ alist_lookup host_fields "instances" = some st._baselines) := by
  constructor
  · intro kvs hk gv h
    simp [BaselineParser.init, h]
  · intro raw hk gv st h
    cases raw with
    | obj kvs =>
      cases hh : alist_lookup kvs "hosts" with
      | none => simp [BaselineParser.init, hh] at h
      | some hostsVal =>
        cases hostsVal with
        | obj host_fields =>
          cases hi : alist_lookup host_fields "instances" with
          | none => simp [BaselineParser.init, hh, hi] at h
          | some inst =>
            simp only [BaselineParser.init, hh, hi, Except.ok.injEq] at h
            exact ⟨kvs, host_fields, rfl, by rw [← h], hh, by rw [← h]; exact hi⟩
        | num q => simp [BaselineParser.init, hh] at h
        | str s => simp [BaselineParser.init, hh] at h
        | bool b => simp [BaselineParser.init, hh] at h
        | null => simp [BaselineParser.init, hh] at h
        | arr es => simp [BaselineParser.init, hh] at h
    | num q => simp [BaselineParser.init] at h
    | str s => simp [BaselineParser.init] at h
    | bool b => simp [BaselineParser.init] at h
    | null => simp [BaselineParser.init] at h
    | arr es => simp [BaselineParser.init] at h

/-- Claim C10: having `hosts` is necessary but not sufficient — a document
whose `hosts` object lacks `instances` fails construction with the lookup
error, which is distinct from the malformed-baseline error, so no state is
returned. -/
theorem C10_missing_instances :
    (∀ kvs host_fields hk gv,
        alist_lookup kvs "hosts" = some (.obj host_fields) →
        alist_lookup host_fields "instances" = none →
        BaselineParser.init (.obj kvs) hk gv = .error (.keyError "instances"))
    ∧ Err.keyError "instances" ≠ Err.malformedBaseline := by
  constructor
  · intro kvs host_fields hk gv hh hi
    simp [BaselineParser.init, hh, hi]
  · decide

/-- Claim C4 witness: a concrete hostless document is rejected, and a concrete
document with `hosts.instances` splits into metadata and baseline data. -/
theorem C4_witness :
    BaselineParser.init (.obj [("version", .str "1")]) .KERNEL_5_10 "main"
      = .error .malformedBaseline
    ∧ (∃ kvs host_fields,
        (Json.obj [("hosts", .obj [("instances", .null)])]) = Json.obj kvs
        ∧ (⟨[], .null, [], .KERNEL_5_10, "main"⟩ : BaselineParserState)._meta
            = kvs.filter (fun p => p.1 != "hosts")
        ∧ alist_lookup kvs "hosts" = some (.obj host_fields)
        ∧ alist_lookup host_fields "instances"
            = some (⟨[], .null, [], .KERNEL_5_10, "main"⟩ : BaselineParserState)._baselines) :=
  ⟨C4_hosts_key.1 [("version", .str "1")] .KERNEL_5_10 "main" rfl,
   C4_hosts_key.2 (.obj [("hosts", .obj [("instances", .null)])]) .KERNEL_5_10 "main"
     ⟨[], .null, [], .KERNEL_5_10, "main"⟩ rfl⟩

/-- Claim C10 witness: the concrete document whose `hosts` object is empty
fails construction with the lookup error. -/
theorem C10_witness :
    BaselineParser.init (.obj [("hosts", .obj [])]) .KERNEL_5_10 "main"
      = .error (.keyError "instances") :=
  C10_missing_instances.1 [("hosts", .obj [])] [] .KERNEL_5_10 "main" rfl rfl

/-- Keys of an association list. -/
def akeys {α β : Type} (l : List (α × β)) : List α := l.map Prod.fst

/-- A key of `upsert k v l` is `k` or a key of `l`. -/
theorem mem_akeys_upsert {α β : Type} [DecidableEq α] {a k : α} {v : β} :
    ∀ {l : List (α × β)}, a ∈ akeys (upsert k v l) → a = k ∨ a ∈ akeys l := by
  intro l
  induction l with
  | nil => simp [upsert, akeys]
  | cons p rest ih =>
    obtain ⟨k1, v1⟩ := p
    by_cases h : k1 = k
    · simp only [upsert, if_pos h, akeys, List.map_cons, List.mem_cons]
      intro hm
      rcases hm with hm | hm
      · exact Or.inl hm
      · exact Or.inr (Or.inr hm)
    · simp only [upsert, if_neg h, akeys, List.map_cons, List.mem_cons]
      intro hm
      rcases hm with hm | hm
      · exact Or.inr (Or.inl hm)
      · rcases ih hm with hm2 | hm2
        · exact Or.inl hm2
        · exact Or.inr (Or.inr hm2)

/-- Unfolding of `upsert` when the head key matches. -/
theorem upsert_cons_eq {α β : Type} [DecidableEq α] (k : α) (v v1 : β)
    (rest : List (α × β)) : upsert k v ((k, v1) :: rest) = (k, v) :: rest := by
  simp [upsert]

/-- Unfolding of `upsert` when the head key differs. -/
theorem upsert_cons_ne {α β : Type} [DecidableEq α] {k k1 : α} (h : k1 ≠ k) (v v1 : β)
    (rest : List (α × β)) :
    upsert k v ((k1, v1) :: rest) = (k1, v1) :: upsert k v rest := by
  simp [upsert, h]

/-- Dictionary assignment preserves key uniqueness. -/
theorem akeys_nodup_upsert {α β : Type} [DecidableEq α] {k : α} {v : β} :
    ∀ {l : List (α × β)}, (akeys l).Nodup → (akeys (upsert k v l)).Nodup := by
  intro l
  induction l with
  | nil => simp [upsert, akeys]
  | cons p rest ih =>
    obtain ⟨k1, v1⟩ := p
    intro hn
    simp only [akeys, List.map_cons, List.nodup_cons] at hn
    by_cases h : k1 = k
    · subst h
      rw [upsert_cons_eq]
      simp only [akeys, List.map_cons, List.nodup_cons]
      exact ⟨hn.1, hn.2⟩
    · rw [upsert_cons_ne h]
      simp only [akeys, List.map_cons, List.nodup_cons]
      refine ⟨fun hm => ?_, ih hn.2⟩
      rcases mem_akeys_upsert hm with hm2 | hm2
      · exact h hm2
      · exact hn.1 hm2

/-- An entry of `upsert k v l` is the new binding or an entry of `l`. -/
theorem mem_upsert {α β : Type} [DecidableEq α] {p : α × β} {k : α} {v : β} :
    ∀ {l : List (α × β)}, p ∈ upsert k v l → p = (k, v) ∨ p ∈ l := by
  intro l
  induction l with
  | nil => simp [upsert]
  | cons q rest ih =>
    obtain ⟨k1, v1⟩ := q
    by_cases h : k1 = k
    · simp only [upsert, if_pos h, List.mem_cons]
      intro hm
      rcases hm with hm | hm
      · exact Or.inl hm
      · exact Or.inr (Or.inr hm)
    · simp only [upsert, if_neg h, List.mem_cons]
      intro hm
      rcases hm with hm | hm
      · exact Or.inr (Or.inl hm)
      · rcases ih hm with hm2 | hm2
        · exact Or.inl hm2
        · exact Or.inr (Or.inr hm2)

/-- A successful dictionary-building loop keeps its keys unique. -/
theorem foldParse_ok_nodup {σ κ χ : Type} [DecidableEq κ] {step : σ → Except Err (κ × χ)} :
    ∀ (l : List σ) (acc m : List (κ × χ)), foldParse step l acc = .ok m →
      (akeys acc).Nodup → (akeys m).Nodup := by
  intro l
  induction l with
  | nil =>
    intro acc m h hn
    simp only [foldParse, Except.ok.injEq] at h
    rwa [← h]
  | cons s rest ih =>
    intro acc m h hn
    simp only [foldParse] at h
    cases hs : step s with
    | error e => rw [hs] at h; cases h
    | ok kv =>
      obtain ⟨k, v⟩ := kv
      rw [hs] at h
      exact ih _ _ h (akeys_nodup_upsert hn)

/-- Values produced by a successful dictionary-building loop all satisfy any
property that the step function guarantees of its outputs. -/
theorem foldParse_ok_values {σ κ χ : Type} [DecidableEq κ] {step : σ → Except Err (κ × χ)}
    {P : χ → Prop} (hstep : ∀ s k v, step s = .ok (k, v) → P v) :
    ∀ (l : List σ) (acc m : List (κ × χ)), foldParse step l acc = .ok m →
      (∀ p ∈ acc, P p.2) → ∀ p ∈ m, P p.2 := by
  intro l
  induction l with
  | nil =>
    intro acc m h hacc
    simp only [foldParse, Except.ok.injEq] at h
    rwa [← h]
  | cons s rest ih =>
    intro acc m h hacc
    simp only [foldParse] at h
    cases hs : step s with
    | error e => rw [hs] at h; cases h
    | ok kv =>
      obtain ⟨k, v⟩ := kv
      rw [hs] at h
      refine ih _ _ h ?_
      intro p hp
      rcases mem_upsert hp with hp2 | hp2
      · rw [hp2]; exact hstep s k v hs
      · exact hacc p hp2

/-- A successful dictionary-building loop succeeded on every raw entry. -/
theorem foldParse_ok_step {σ κ χ : Type} [DecidableEq κ] {step : σ → Except Err (κ × χ)} :
    ∀ (l : List σ) (acc m : List (κ × χ)), foldParse step l acc = .ok m →
      ∀ s ∈ l, ∃ kv, step s = .ok kv := by
  intro l
  induction l with
  | nil => intro acc m _ s hs; cases hs
  | cons s0 rest ih =>
    intro acc m h s hs
    simp only [foldParse] at h
    cases hs0 : step s0 with
    | error e => rw [hs0] at h; cases h
    | ok kv =>
      obtain ⟨k, v⟩ := kv
      rw [hs0] at h
      rcases List.mem_cons.mp hs with hs1 | hs1
      · exact ⟨(k, v), by rw [hs1]; exact hs0⟩
      · exact ih _ _ h s hs1

/-- A dictionary-building loop never returns an error its step function never
returns. -/
theorem foldParse_avoid {σ κ χ : Type} [DecidableEq κ] {step : σ → Except Err (κ × χ)}
    {bad : Err} :
    ∀ (l : List σ), (∀ s ∈ l, step s ≠ .error bad) →
      ∀ acc, foldParse step l acc ≠ .error bad := by
  intro l
  induction l with
  | nil => intro _ acc h; simp [foldParse] at h
  | cons s0 rest ih =>
    intro hl acc h
    simp only [foldParse] at h
    cases hs0 : step s0 with
    | error e =>
      rw [hs0] at h
      have : e ≠ bad := fun he => hl s0 (List.mem_cons_self s0 rest) (by rw [hs0, he])
      exact this (by injection h)
    | ok kv =>
      obtain ⟨k, v⟩ := kv
      rw [hs0] at h
      exact ih (fun s hs => hl s (List.mem_cons_of_mem s0 hs)) _ h

/-- Key uniqueness of the machine-config level. -/
def McMapWF (m : McMap) : Prop := (akeys m).Nodup

/-- Key uniqueness of the guest-OS level and everything below it. -/
def OsMapWF (m : OsMap) : Prop := (akeys m).Nodup ∧ ∀ p ∈ m, McMapWF p.2

/-- Key uniqueness of the guest-kernel level and everything below it. -/
def KMapWF (m : KMap) : Prop := (akeys m).Nodup ∧ ∀ p ∈ m, OsMapWF p.2

/-- Key uniqueness of the metric level and everything below it. -/
def MetMapWF (m : MetMap) : Prop := (akeys m).Nodup ∧ ∀ p ∈ m, KMapWF p.2

/-- Key uniqueness of the whole parsed tree: every coordinate addresses at
most one leaf. -/
def InstMapWF (m : InstMap) : Prop := (akeys m).Nodup ∧ ∀ p ∈ m, MetMapWF p.2

/-- A successful userspace step yields a key-unique machine-config map. -/
theorem us_step_ok_wf (cb : Json → Except Err Json) (p : String × Json) (os : GuestOs)
    (mc : McMap) (h : us_step cb p = .ok (os, mc)) : McMapWF mc := by
  obtain ⟨tok, v⟩ := p
  cases v with
  | obj configs =>
    simp only [us_step] at h
    cases hf : foldParse (config_step cb) configs [] with
    | error e => rw [hf] at h; cases h
    | ok mc2 =>
      rw [hf] at h
      cases hg : GuestOs.from_str tok with
      | error e => rw [hg] at h; cases h
      | ok os2 =>
        rw [hg] at h
        injection h with h2
        have hmc : mc2 = mc := congrArg Prod.snd h2
        rw [← hmc]
        exact foldParse_ok_nodup _ _ _ hf (by simp [akeys])
  | num q => exact Except.noConfusion h
  | str s => exact Except.noConfusion h
  | bool b => exact Except.noConfusion h
  | null => exact Except.noConfusion h
  | arr es => exact Except.noConfusion h

/-- A successful kernel step yields a well-formed OS map. -/
theorem kernel_step_ok_wf (cb : Json → Except Err Json) (p : String × Json)
    (kv : KernelVersion) (osm : OsMap) (h : kernel_step cb p = .ok (kv, osm)) :
    OsMapWF osm := by
  obtain ⟨tok, v⟩ := p
  cases v with
  | obj userspaces =>
    simp only [kernel_step] at h
    cases hf : foldParse (us_step cb) userspaces [] with
    | error e => rw [hf] at h; cases h
    | ok osm2 =>
      rw [hf] at h
      cases hg : KernelVersion.from_str tok with
      | error e => rw [hg] at h; cases h
      | ok kv2 =>
        rw [hg] at h
        injection h with h2
        have hosm : osm2 = osm := congrArg Prod.snd h2
        rw [← hosm]
        refine ⟨foldParse_ok_nodup _ _ _ hf (by simp [akeys]), ?_⟩
        exact foldParse_ok_values (fun s k vv hs => us_step_ok_wf cb s k vv hs) _ _ _ hf
          (by simp)
  | num q => exact Except.noConfusion h
  | str s => exact Except.noConfusion h
  | bool b => exact Except.noConfusion h
  | null => exact Except.noConfusion h
  | arr es => exact Except.noConfusion h

/-- A successful metric step yields a well-formed kernel map. -/
theorem metric_step_ok_wf (cb : Json → Except Err Json) (p : String × Json)
    (m : Metric) (ks : KMap) (h : metric_step cb p = .ok (m, ks)) : KMapWF ks := by
  obtain ⟨tok, v⟩ := p
  cases v with
  | obj kernels =>
    simp only [metric_step] at h
    cases hf : foldParse (kernel_step cb) kernels [] with
    | error e => rw [hf] at h; cases h
    | ok ks2 =>
      rw [hf] at h
      cases hg : Metric.from_str tok with
      | error e => rw [hg] at h; cases h
      | ok m2 =>
        rw [hg] at h
        injection h with h2
        have hks : ks2 = ks := congrArg Prod.snd h2
        rw [← hks]
        refine ⟨foldParse_ok_nodup _ _ _ hf (by simp [akeys]), ?_⟩
        exact foldParse_ok_values (fun s k vv hs => kernel_step_ok_wf cb s k vv hs) _ _ _ hf
          (by simp)
  | num q => exact Except.noConfusion h
  | str s => exact Except.noConfusion h
  | bool b => exact Except.noConfusion h
  | null => exact Except.noConfusion h
  | arr es => exact Except.noConfusion h

/-- A successful CPU step yields a well-formed metric map. -/
theorem cpu_step_ok_wf (cb : Json → Except Err Json) (it : String) (cpuJson : Json)
    (cm : CpuModel) (mets : MetMap) (h : cpu_step cb it cpuJson = .ok (cm, mets)) :
    MetMapWF mets := by
  cases cpuJson with
  | obj fields =>
    cases hm : alist_lookup fields "model" with
    | none => simp [cpu_step, hm] at h
    | some mv =>
      cases mv with
      | str model =>
        cases hb : alist_lookup fields "baselines" with
        | none => simp [cpu_step, hm, hb] at h
        | some bv =>
          cases bv with
          | obj baselines =>
            cases hf : foldParse (metric_step cb) baselines [] with
            | error e => simp [cpu_step, hm, hb, hf] at h
            | ok mets2 =>
              cases hc : CpuModel.from_str it model with
              | error e => simp [cpu_step, hm, hb, hf, hc] at h
              | ok cm2 =>
                simp only [cpu_step, hm, hb, hf, hc, Except.ok.injEq, Prod.mk.injEq] at h
                rw [← h.2]
                refine ⟨foldParse_ok_nodup _ _ _ hf (by simp [akeys]), ?_⟩
                exact foldParse_ok_values
                  (fun s k vv hs => metric_step_ok_wf cb s k vv hs) _ _ _ hf (by simp)
          | num q => simp [cpu_step, hm, hb] at h
          | str s => simp [cpu_step, hm, hb] at h
          | bool b => simp [cpu_step, hm, hb] at h
          | null => simp [cpu_step, hm, hb] at h
          | arr es => simp [cpu_step, hm, hb] at h
      | num q => simp [cpu_step, hm] at h
      | bool b => simp [cpu_step, hm] at h
      | null => simp [cpu_step, hm] at h
      | arr es => simp [cpu_step, hm] at h
      | obj o => simp [cpu_step, hm] at h
  | num q => exact Except.noConfusion h
  | str s => exact Except.noConfusion h
  | bool b => exact Except.noConfusion h
  | null => exact Except.noConfusion h
  | arr es => exact Except.noConfusion h

/-- The instance loop preserves well-formedness of the shared instances map. -/
theorem parse_instances_ok_wf (cb : Json → Except Err Json) :
    ∀ (l : List (String × Json)) (acc m : InstMap), parse_instances cb l acc = .ok m →
      InstMapWF acc → InstMapWF m := by
  intro l
  induction l with
  | nil =>
    intro acc m h hacc
    simp only [parse_instances, Except.ok.injEq] at h
    rwa [← h]
  | cons p rest ih =>
    obtain ⟨it, v⟩ := p
    intro acc m h hacc
    cases v with
    | obj fields =>
      cases hc : alist_lookup fields "cpus" with
      | none => simp [parse_instances, hc] at h
      | some cv =>
        cases cv with
        | arr cpus =>
          cases hf : foldParse (cpu_step cb it) cpus acc with
          | error e => simp [parse_instances, hc, hf] at h
          | ok acc2 =>
            simp only [parse_instances, hc, hf] at h
            refine ih _ _ h ⟨foldParse_ok_nodup _ _ _ hf hacc.1, ?_⟩
            exact foldParse_ok_values
              (fun s k vv hs => cpu_step_ok_wf cb it s k vv hs) _ _ _ hf hacc.2
        | num q => simp [parse_instances, hc] at h
        | str s => simp [parse_instances, hc] at h
        | bool b => simp [parse_instances, hc] at h
        | null => simp [parse_instances, hc] at h
        | obj o => simp [parse_instances, hc] at h
    | num q => exact Except.noConfusion h
    | str s => exact Except.noConfusion h
    | bool b => exact Except.noConfusion h
    | null => exact Except.noConfusion h
    | arr es => exact Except.noConfusion h

/-- Any tree produced by the whole load pipeline is key-unique at every
level. -/
theorem load_ok_wf (cb : Json → Except Err Json) (raw : Json) (hk : KernelVersion)
    (gv : String) (m : InstMap) (h : load_baselines cb raw hk gv = .ok m) :
    InstMapWF m := by
  simp only [load_baselines] at h
  cases hi : BaselineParser.init raw hk gv with
  | error e => rw [hi] at h; cases h
  | ok st =>
    rw [hi] at h
    simp only [BaselineParser._parse_data] at h
    cases hb : st._baselines with
    | obj instances =>
      rw [hb] at h
      exact parse_instances_ok_wf cb _ _ _ h ⟨by simp [akeys], by simp⟩
    | num q => rw [hb] at h; cases h
    | str s => rw [hb] at h; cases h
    | bool b => rw [hb] at h; cases h
    | null => rw [hb] at h; cases h
    | arr es => rw [hb] at h; cases h

/-- CPU description string of the SkyLake model, as it appears in baseline
documents for the `m5d.metal` instance type. -/
def model_skylake : String := "Intel(R) Xeon(R) Platinum 8175M CPU @ 2.50GHz"

/-- One CPU entry with a single throughput leaf whose target is `x`. -/
def dup_cpu (x : ℚ) : Json :=
  .obj [("model", .str model_skylake),
        ("baselines", .obj [("throughput", .obj [("5.10", .obj [("ubuntu-18.04.ext4",
          .obj [("1vcpu_1024mb.json", .obj [("unixstream",
            .obj [("target", .num x)])])])])])])]

/-- A document whose one instance type lists two CPU entries carrying the
same model string, hence resolving to the same `CpuModel`, with different
leaf data. -/
def dup_doc : Json :=
  .obj [("hosts", .obj [("instances", .obj [("m5d.metal",
    .obj [("cpus", .arr [dup_cpu 100, dup_cpu 200])])])])]

/-- The tree produced from `dup_doc`: only the second CPU entry's data
survives. -/
def dup_tree : InstMap :=
  [(CpuModel.SKY_LAKE, [(Metric.THROUGHPUT, [(KernelVersion.KERNEL_5_10,
    [(GuestOs.UBUNTU_18_04, [(MachineConfig.VCPU_1_MEM_1G,
      Json.obj [("target", Json.num 200)])])])])])]

/-- Claim C6 counterexample: a document with two CPU entries of one instance
type resolving to the same `CpuModel` is not rejected; the load succeeds and
the later entry's leaf (target 200) has silently replaced the earlier one
(target 100). -/
theorem C6_counterexample :
    load_baselines (fun d => .ok d) dup_doc .KERNEL_5_10 "main" = .ok dup_tree := by
  rfl

/-- Claim C6 (amended): every tree the loader produces is key-unique at every
level, so there is at most one leaf per full coordinate; but duplicate leaves
for one coordinate in a document are not rejected as a malformed-input
error — the later entry silently replaces the earlier one, as `dup_doc`
(two SkyLake entries, targets 100 and 200) shows. -/
theorem C6_unique_keys_amended :
    (∀ cb raw hk gv m, load_baselines cb raw hk gv = .ok m → InstMapWF m)
    ∧ load_baselines (fun d => .ok d) dup_doc .KERNEL_5_10 "main" = .ok dup_tree :=
  ⟨fun cb raw hk gv m h => load_ok_wf cb raw hk gv m h, by rfl⟩

/-- Claim C6 witness: the amended theorem applied to the concrete duplicate
document yields well-formedness of the resulting tree. -/
theorem C6_witness : InstMapWF dup_tree :=
  C6_unique_keys_amended.1 (fun d => .ok d) dup_doc .KERNEL_5_10 "main" dup_tree (by rfl)

/-- An error returned by `GuestOs.from_str` is the unknown-token error. -/
theorem guestos_from_str_err {tok : String} {e : Err}
    (h : GuestOs.from_str tok = .error e) : e = .unknownToken tok := by
  by_cases ht : tok = "ubuntu-18.04.ext4"
  · rw [GuestOs.from_str, if_pos ht] at h; cases h
  · rw [GuestOs.from_str, if_neg ht] at h; injection h with h2; exact h2.symm

/-- An error returned by `MachineConfig.from_str` is the unknown-token
error. -/
theorem machineconfig_from_str_err {tok : String} {e : Err}
    (h : MachineConfig.from_str tok = .error e) : e = .unknownToken tok := by
  by_cases h1 : tok = "1vcpu_1024mb.json"
  · rw [MachineConfig.from_str, if_pos h1] at h; cases h
  · by_cases h2 : tok = "2vcpu_1024mb.json"
    · rw [MachineConfig.from_str, if_neg h1, if_pos h2] at h; cases h
    · rw [MachineConfig.from_str, if_neg h1, if_neg h2] at h
      injection h with h3; exact h3.symm

/-- An error returned by `Metric.from_str` is the unknown-token error. -/
theorem metric_from_str_err {tok : String} {e : Err}
    (h : Metric.from_str tok = .error e) : e = .unknownToken tok := by
  by_cases h1 : tok = "cpu_utilization_vcpus_total"
  · rw [Metric.from_str, if_pos h1] at h; cases h
  · by_cases h2 : tok = "cpu_utilization_vmm"
    · rw [Metric.from_str, if_neg h1, if_pos h2] at h; cases h
    · by_cases h3 : tok = "throughput"
      · rw [Metric.from_str, if_neg h1, if_neg h2, if_pos h3] at h; cases h
      · rw [Metric.from_str, if_neg h1, if_neg h2, if_neg h3] at h
        injection h with h4; exact h4.symm

/-- An error returned by `KernelVersion.from_str` is the unknown-token
error. -/
theorem kernelversion_from_str_err {tok : String} {e : Err}
    (h : KernelVersion.from_str tok = .error e) : e = .unknownToken tok := by
  by_cases h1 : tok = "5.10" ∨ tok = "vmlinux-5.10.bin"
  · rw [KernelVersion.from_str, if_pos h1] at h; cases h
  · by_cases h2 : tok = "4.14" ∨ tok = "vmlinux-4.14.bin"
    · rw [KernelVersion.from_str, if_neg h1, if_pos h2] at h; cases h
    · rw [KernelVersion.from_str, if_neg h1, if_neg h2] at h
      injection h with h3; exact h3.symm

/-- An error returned by `CpuModel.from_str` is the unknown-token error. -/
theorem cpumodel_from_str_err {it model : String} {e : Err}
    (h : CpuModel.from_str it model = .error e) :
    e = .unknownToken (it ++ "/" ++ model) := by
  cases hl : alist_lookup MODELCODE (it, model) with
  | none => rw [CpuModel.from_str, hl] at h; injection h with h2; exact h2.symm
  | some m => rw [CpuModel.from_str, hl] at h; cases h

/-- A configuration leaf raises no statistic-kind assert: if it is an object
it has exactly one key. Non-objects fail earlier with a different error. -/
def config_item_no_amb (p : String × Json) : Bool :=
  match p.2 with
  | .obj g => g.length == 1
  | _ => true

/-- No configuration leaf under this userspace entry is ambiguous. -/
def us_item_no_amb (p : String × Json) : Bool :=
  match p.2 with
  | .obj configs => configs.all config_item_no_amb
  | _ => true

/-- No configuration leaf under this guest-kernel entry is ambiguous. -/
def kernel_item_no_amb (p : String × Json) : Bool :=
  match p.2 with
  | .obj userspaces => userspaces.all us_item_no_amb
  | _ => true

/-- No configuration leaf under this metric entry is ambiguous. -/
def metric_item_no_amb (p : String × Json) : Bool :=
  match p.2 with
  | .obj kernels => kernels.all kernel_item_no_amb
  | _ => true

/-- No configuration leaf under this CPU entry is ambiguous. -/
def cpu_no_amb (j : Json) : Bool :=
  match j with
  | .obj fields =>
    match alist_lookup fields "baselines" with
    | some (.obj baselines) => baselines.all metric_item_no_amb
    | _ => true
  | _ => true

/-- No configuration leaf under this instance entry is ambiguous. -/
def inst_item_no_amb (p : String × Json) : Bool :=
  match p.2 with
  | .obj fields =>
    match alist_lookup fields "cpus" with
    | some (.arr cpus) => cpus.all cpu_no_amb
    | _ => true
  | _ => true

/-- No configuration leaf anywhere in the document is ambiguous. -/
def doc_no_amb (raw : Json) : Bool :=
  match raw with
  | .obj kvs =>
    match alist_lookup kvs "hosts" with
    | some (.obj host_fields) =>
      match alist_lookup host_fields "instances" with
      | some (.obj instances) => instances.all inst_item_no_amb
      | _ => true
    | _ => true
  | _ => true

/-- The document's top level has the `hosts` key (trivially true for
non-objects, which fail earlier with a different error). -/
def hosts_present (raw : Json) : Bool :=
  match raw with
  | .obj kvs => (alist_lookup kvs "hosts").isSome
  | _ => true

/-- A config step on an unambiguous leaf never reports the malformed
error. -/
theorem config_step_no_mal (cb : Json → Except Err Json)
    (hcb : ∀ d, cb d ≠ .error .malformedBaseline) (p : String × Json)
    (hp : config_item_no_amb p = true) :
    config_step cb p ≠ .error .malformedBaseline := by
  obtain ⟨tok, v⟩ := p
  intro h
  cases v with
  | obj g =>
    cases g with
    | nil => simp [config_item_no_amb] at hp
    | cons p0 tail =>
      cases tail with
      | nil =>
        obtain ⟨k0, d0⟩ := p0
        cases hmc : MachineConfig.from_str tok with
        | error e =>
          simp only [config_step, hmc] at h
          injection h with h2
          rw [machineconfig_from_str_err hmc] at h2
          exact Err.noConfusion h2
        | ok mc =>
          cases hd : cb d0 with
          | error e =>
            simp only [config_step, hmc, hd] at h
            injection h with h2
            exact hcb d0 (by rw [hd, h2])
          | ok sub => simp [config_step, hmc, hd] at h
      | cons p1 tail2 => simp [config_item_no_amb] at hp
  | num q => simp [config_step] at h
  | str s => simp [config_step] at h
  | bool b => simp [config_step] at h
  | null => simp [config_step] at h
  | arr es => simp [config_step] at h

/-- A userspace step over unambiguous leaves never reports the malformed
error. -/
theorem us_step_no_mal (cb : Json → Except Err Json)
    (hcb : ∀ d, cb d ≠ .error .malformedBaseline) (p : String × Json)
    (hp : us_item_no_amb p = true) :
    us_step cb p ≠ .error .malformedBaseline := by
  obtain ⟨tok, v⟩ := p
  intro h
  cases v with
  | obj configs =>
    cases hf : foldParse (config_step cb) configs [] with
    | error e =>
      simp only [us_step, hf] at h
      injection h with h2
      have hall : ∀ q ∈ configs, config_step cb q ≠ .error .malformedBaseline := by
        intro q hq
        refine config_step_no_mal cb hcb q ?_
        have h3 : ∀ (a : String) (b : Json), (a, b) ∈ configs →
            config_item_no_amb (a, b) = true := by
          simpa [us_item_no_amb] using hp
        obtain ⟨qa, qb⟩ := q
        exact h3 qa qb hq
      exact foldParse_avoid configs hall [] (by rw [hf, h2])
    | ok mc =>
      cases hg : GuestOs.from_str tok with
      | error e =>
        simp only [us_step, hf, hg] at h
        injection h with h2
        rw [guestos_from_str_err hg] at h2
        exact Err.noConfusion h2
      | ok os => simp [us_step, hf, hg] at h
  | num q => simp [us_step] at h
  | str s => simp [us_step] at h
  | bool b => simp [us_step] at h
  | null => simp [us_step] at h
  | arr es => simp [us_step] at h

/-- A guest-kernel step over unambiguous leaves never reports the malformed
error. -/
theorem kernel_step_no_mal (cb : Json → Except Err Json)
    (hcb : ∀ d, cb d ≠ .error .malformedBaseline) (p : String × Json)
    (hp : kernel_item_no_amb p = true) :
    kernel_step cb p ≠ .error .malformedBaseline := by
  obtain ⟨tok, v⟩ := p
  intro h
  cases v with
  | obj userspaces =>
    cases hf : foldParse (us_step cb) userspaces [] with
    | error e =>
      simp only [kernel_step, hf] at h
      injection h with h2
      have hall : ∀ q ∈ userspaces, us_step cb q ≠ .error .malformedBaseline := by
        intro q hq
        refine us_step_no_mal cb hcb q ?_
        have h3 : ∀ (a : String) (b : Json), (a, b) ∈ userspaces →
            us_item_no_amb (a, b) = true := by
          simpa [kernel_item_no_amb] using hp
        obtain ⟨qa, qb⟩ := q
        exact h3 qa qb hq
      exact foldParse_avoid userspaces hall [] (by rw [hf, h2])
    | ok osm =>
      cases hg : KernelVersion.from_str tok with
      | error e =>
        simp only [kernel_step, hf, hg] at h
        injection h with h2
        rw [kernelversion_from_str_err hg] at h2
        exact Err.noConfusion h2
      | ok kv => simp [kernel_step, hf, hg] at h
  | num q => simp [kernel_step] at h
  | str s => simp [kernel_step] at h
  | bool b => simp [kernel_step] at h
  | null => simp [kernel_step] at h
  | arr es => simp [kernel_step] at h

/-- A metric step over unambiguous leaves never reports the malformed
error. -/
theorem metric_step_no_mal (cb : Json → Except Err Json)
    (hcb : ∀ d, cb d ≠ .error .malformedBaseline) (p : String × Json)
    (hp : metric_item_no_amb p = true) :
    metric_step cb p ≠ .error .malformedBaseline := by
  obtain ⟨tok, v⟩ := p
  intro h
  cases v with
  | obj kernels =>
    cases hf : foldParse (kernel_step cb) kernels [] with
    | error e =>
      simp only [metric_step, hf] at h
      injection h with h2
      have hall : ∀ q ∈ kernels, kernel_step cb q ≠ .error .malformedBaseline := by
        intro q hq
        refine kernel_step_no_mal cb hcb q ?_
        have h3 : ∀ (a : String) (b : Json), (a, b) ∈ kernels →
            kernel_item_no_amb (a, b) = true := by
          simpa [metric_item_no_amb] using hp
        obtain ⟨qa, qb⟩ := q
        exact h3 qa qb hq
      exact foldParse_avoid kernels hall [] (by rw [hf, h2])
    | ok ks =>
      cases hg : Metric.from_str tok with
      | error e =>
        simp only [metric_step, hf, hg] at h
        injection h with h2
        rw [metric_from_str_err hg] at h2
        exact Err.noConfusion h2
      | ok m => simp [metric_step, hf, hg] at h
  | num q => simp [metric_step] at h
  | str s => simp [metric_step] at h
  | bool b => simp [metric_step] at h
  | null => simp [metric_step] at h
  | arr es => simp [metric_step] at h

/-- A CPU step over unambiguous leaves never reports the malformed error. -/
theorem cpu_step_no_mal (cb : Json → Except Err Json)
    (hcb : ∀ d, cb d ≠ .error .malformedBaseline) (it : String) (j : Json)
    (hp : cpu_no_amb j = true) :
    cpu_step cb it j ≠ .error .malformedBaseline := by
  intro h
  cases j with
  | obj fields =>
    cases hm : alist_lookup fields "model" with
    | none => simp [cpu_step, hm] at h
    | some mv =>
      cases mv with
      | str model =>
        cases hb : alist_lookup fields "baselines" with
        | none => simp [cpu_step, hm, hb] at h
        | some bv =>
          cases bv with
          | obj baselines =>
            cases hf : foldParse (metric_step cb) baselines [] with
            | error e =>
              simp only [cpu_step, hm, hb, hf] at h
              injection h with h2
              have hall : ∀ q ∈ baselines,
                  metric_step cb q ≠ .error .malformedBaseline := by
                intro q hq
                refine metric_step_no_mal cb hcb q ?_
                have h3 : ∀ (a : String) (b : Json), (a, b) ∈ baselines →
                    metric_item_no_amb (a, b) = true := by
                  simpa [cpu_no_amb, hb] using hp
                obtain ⟨qa, qb⟩ := q
                exact h3 qa qb hq
              exact foldParse_avoid baselines hall [] (by rw [hf, h2])
            | ok mets =>
              cases hc : CpuModel.from_str it model with
              | error e =>
                simp only [cpu_step, hm, hb, hf, hc] at h
                injection h with h2
                rw [cpumodel_from_str_err hc] at h2
                exact Err.noConfusion h2
              | ok cm => simp [cpu_step, hm, hb, hf, hc] at h
          | num q => simp [cpu_step, hm, hb] at h
          | str s => simp [cpu_step, hm, hb] at h
          | bool b => simp [cpu_step, hm, hb] at h
          | null => simp [cpu_step, hm, hb] at h
          | arr es => simp [cpu_step, hm, hb] at h
      | num q => simp [cpu_step, hm] at h
      | bool b => simp [cpu_step, hm] at h
      | null => simp [cpu_step, hm] at h
      | arr es => simp [cpu_step, hm] at h
      | obj o => simp [cpu_step, hm] at h
  | num q => simp [cpu_step] at h
  | str s => simp [cpu_step] at h
  | bool b => simp [cpu_step] at h
  | null => simp [cpu_step] at h
  | arr es => simp [cpu_step] at h

/-- The instance loop over unambiguous leaves never reports the malformed
error. -/
theorem parse_instances_no_mal (cb : Json → Except Err Json)
    (hcb : ∀ d, cb d ≠ .error .malformedBaseline) :
    ∀ (l : List (String × Json)), (l.all inst_item_no_amb) = true →
      ∀ acc, parse_instances cb l acc ≠ .error .malformedBaseline := by
  intro l
  induction l with
  | nil => intro _ acc h; simp [parse_instances] at h
  | cons p rest ih =>
    obtain ⟨it, v⟩ := p
    intro hl acc h
    rw [List.all_cons, Bool.and_eq_true] at hl
    cases v with
    | obj fields =>
      cases hc : alist_lookup fields "cpus" with
      | none => simp [parse_instances, hc] at h
      | some cv =>
        cases cv with
        | arr cpus =>
          cases hf : foldParse (cpu_step cb it) cpus acc with
          | error e =>
            simp only [parse_instances, hc, hf] at h
            injection h with h2
            have hall : ∀ q ∈ cpus, cpu_step cb it q ≠ .error .malformedBaseline := by
              intro q hq
              refine cpu_step_no_mal cb hcb it q ?_
              have h3 : ∀ b ∈ cpus, cpu_no_amb b = true := by
                have := hl.1
                simpa [inst_item_no_amb, hc] using this
              exact h3 q hq
            exact foldParse_avoid cpus hall acc (by rw [hf, h2])
          | ok acc2 =>
            simp only [parse_instances, hc, hf] at h
            exact ih hl.2 acc2 h
        | num q => simp [parse_instances, hc] at h
        | str s => simp [parse_instances, hc] at h
        | bool b => simp [parse_instances, hc] at h
        | null => simp [parse_instances, hc] at h
        | obj o => simp [parse_instances, hc] at h
    | num q => simp [parse_instances] at h
    | str s => simp [parse_instances] at h
    | bool b => simp [parse_instances] at h
    | null => simp [parse_instances] at h
    | arr es => simp [parse_instances] at h

/-- The whole load pipeline never reports the malformed error on a document
that has the `hosts` key and no ambiguous configuration leaf, provided the
extraction callback never reports it. -/
theorem load_no_mal (cb : Json → Except Err Json)
    (hcb : ∀ d, cb d ≠ .error .malformedBaseline) (raw : Json) (hk : KernelVersion)
    (gv : String) (hh : hosts_present raw = true) (hna : doc_no_amb raw = true) :
    load_baselines cb raw hk gv ≠ .error .malformedBaseline := by
  intro h
  cases raw with
  | obj kvs =>
    cases hl : alist_lookup kvs "hosts" with
    | none => simp [hosts_present, hl] at hh
    | some hv =>
      cases hv with
      | obj host_fields =>
        cases hi : alist_lookup host_fields "instances" with
        | none => simp [load_baselines, BaselineParser.init, hl, hi] at h
        | some inst =>
          simp only [load_baselines, BaselineParser.init, hl, hi,
            BaselineParser._parse_data] at h
          cases inst with
          | obj instances =>
            have hna2 : (instances.all inst_item_no_amb) = true := by
              simpa [doc_no_amb, hl, hi] using hna
            exact parse_instances_no_mal cb hcb instances hna2 [] h
          | num q => exact Err.noConfusion (by injection h)
          | str s => exact Err.noConfusion (by injection h)
          | bool b => exact Err.noConfusion (by injection h)
          | null => exact Err.noConfusion (by injection h)
          | arr es => exact Err.noConfusion (by injection h)
      | num q => simp [load_baselines, BaselineParser.init, hl] at h
      | str s => simp [load_baselines, BaselineParser.init, hl] at h
      | bool b => simp [load_baselines, BaselineParser.init, hl] at h
      | null => simp [load_baselines, BaselineParser.init, hl] at h
      | arr es => simp [load_baselines, BaselineParser.init, hl] at h
  | num q => simp [load_baselines, BaselineParser.init] at h
  | str s => simp [load_baselines, BaselineParser.init] at h
  | bool b => simp [load_baselines, BaselineParser.init] at h
  | null => simp [load_baselines, BaselineParser.init] at h
  | arr es => simp [load_baselines, BaselineParser.init] at h

/-- The configuration leaf is an object with exactly one (statistic-kind)
key. -/
def config_item_one (p : String × Json) : Bool :=
  match p.2 with
  | .obj [_] => true
  | _ => false

/-- Every configuration leaf under this userspace entry has exactly one
statistic-kind key. -/
def us_item_one (p : String × Json) : Bool :=
  match p.2 with
  | .obj configs => configs.all config_item_one
  | _ => false

/-- Every configuration leaf under this guest-kernel entry has exactly one
statistic-kind key. -/
def kernel_item_one (p : String × Json) : Bool :=
  match p.2 with
  | .obj userspaces => userspaces.all us_item_one
  | _ => false

/-- Every configuration leaf under this metric entry has exactly one
statistic-kind key. -/
def metric_item_one (p : String × Json) : Bool :=
  match p.2 with
  | .obj kernels => kernels.all kernel_item_one
  | _ => false

/-- The CPU entry is well-shaped and every configuration leaf below it has
exactly one statistic-kind key. -/
def cpu_one (j : Json) : Bool :=
  match j with
  | .obj fields =>
    match alist_lookup fields "model", alist_lookup fields "baselines" with
    | some (.str _), some (.obj baselines) => baselines.all metric_item_one
    | _, _ => false
  | _ => false

/-- The instance entry is well-shaped and every configuration leaf below it
has exactly one statistic-kind key. -/
def inst_item_one (p : String × Json) : Bool :=
  match p.2 with
  | .obj fields =>
    match alist_lookup fields "cpus" with
    | some (.arr cpus) => cpus.all cpu_one
    | _ => false
  | _ => false

/-- The document is well-shaped and every configuration leaf has exactly one
statistic-kind key. -/
def doc_one (raw : Json) : Bool :=
  match raw with
  | .obj kvs =>
    match alist_lookup kvs "hosts" with
    | some (.obj host_fields) =>
      match alist_lookup host_fields "instances" with
      | some (.obj instances) => instances.all inst_item_one
      | _ => false
    | _ => false
  | _ => false

/-- A config step only succeeds on a one-key object leaf. -/
theorem config_step_ok_one (cb : Json → Except Err Json) (p : String × Json)
    (kv : MachineConfig × Json) (h : config_step cb p = .ok kv) :
    config_item_one p = true := by
  obtain ⟨tok, v⟩ := p
  cases v with
  | obj g =>
    cases g with
    | nil => simp [config_step] at h
    | cons p0 tail =>
      cases tail with
      | nil => simp [config_item_one]
      | cons p1 tail2 => simp [config_step] at h
  | num q => exact Except.noConfusion h
  | str s => exact Except.noConfusion h
  | bool b => exact Except.noConfusion h
  | null => exact Except.noConfusion h
  | arr es => exact Except.noConfusion h

/-- A userspace step only succeeds when all its configuration leaves have
one key. -/
theorem us_step_ok_one (cb : Json → Except Err Json) (p : String × Json)
    (kv : GuestOs × McMap) (h : us_step cb p = .ok kv) : us_item_one p = true := by
  obtain ⟨tok, v⟩ := p
  cases v with
  | obj configs =>
    cases hf : foldParse (config_step cb) configs [] with
    | error e => simp [us_step, hf] at h
    | ok mc =>
      simp only [us_item_one, List.all_eq_true]
      intro q hq
      obtain ⟨kv2, hkv2⟩ := foldParse_ok_step configs [] mc hf q hq
      exact config_step_ok_one cb q kv2 hkv2
  | num q => exact Except.noConfusion h
  | str s => exact Except.noConfusion h
  | bool b => exact Except.noConfusion h
  | null => exact Except.noConfusion h
  | arr es => exact Except.noConfusion h

/-- A guest-kernel step only succeeds when all its configuration leaves have
one key. -/
theorem kernel_step_ok_one (cb : Json → Except Err Json) (p : String × Json)
    (kv : KernelVersion × OsMap) (h : kernel_step cb p = .ok kv) :
    kernel_item_one p = true := by
  obtain ⟨tok, v⟩ := p
  cases v with
  | obj userspaces =>
    cases hf : foldParse (us_step cb) userspaces [] with
    | error e => simp [kernel_step, hf] at h
    | ok osm =>
      simp only [kernel_item_one, List.all_eq_true]
      intro q hq
      obtain ⟨kv2, hkv2⟩ := foldParse_ok_step userspaces [] osm hf q hq
      exact us_step_ok_one cb q kv2 hkv2
  | num q => exact Except.noConfusion h
  | str s => exact Except.noConfusion h
  | bool b => exact Except.noConfusion h
  | null => exact Except.noConfusion h
  | arr es => exact Except.noConfusion h

/-- A metric step only succeeds when all its configuration leaves have one
key. -/
theorem metric_step_ok_one (cb : Json → Except Err Json) (p : String × Json)
    (kv : Metric × KMap) (h : metric_step cb p = .ok kv) :
    metric_item_one p = true := by
  obtain ⟨tok, v⟩ := p
  cases v with
  | obj kernels =>
    cases hf : foldParse (kernel_step cb) kernels [] with
    | error e => simp [metric_step, hf] at h
    | ok ks =>
      simp only [metric_item_one, List.all_eq_true]
      intro q hq
      obtain ⟨kv2, hkv2⟩ := foldParse_ok_step kernels [] ks hf q hq
      exact kernel_step_ok_one cb q kv2 hkv2
  | num q => exact Except.noConfusion h
  | str s => exact Except.noConfusion h
  | bool b => exact Except.noConfusion h
  | null => exact Except.noConfusion h
  | arr es => exact Except.noConfusion h

/-- A CPU step only succeeds on a well-shaped entry whose configuration
leaves all have one key. -/
theorem cpu_step_ok_one (cb : Json → Except Err Json) (it : String) (j : Json)
    (kv : CpuModel × MetMap) (h : cpu_step cb it j = .ok kv) : cpu_one j = true := by
  cases j with
  | obj fields =>
    cases hm : alist_lookup fields "model" with
    | none => simp [cpu_step, hm] at h
    | some mv =>
      cases mv with
      | str model =>
        cases hb : alist_lookup fields "baselines" with
        | none => simp [cpu_step, hm, hb] at h
        | some bv =>
          cases bv with
          | obj baselines =>
            cases hf : foldParse (metric_step cb) baselines [] with
            | error e => simp [cpu_step, hm, hb, hf] at h
            | ok mets =>
              simp only [cpu_one, hm, hb, List.all_eq_true]
              intro q hq
              obtain ⟨kv2, hkv2⟩ := foldParse_ok_step baselines [] mets hf q hq
              exact metric_step_ok_one cb q kv2 hkv2
          | num q => simp [cpu_step, hm, hb] at h
          | str s => simp [cpu_step, hm, hb] at h
          | bool b => simp [cpu_step, hm, hb] at h
          | null => simp [cpu_step, hm, hb] at h
          | arr es => simp [cpu_step, hm, hb] at h
      | num q => simp [cpu_step, hm] at h
      | bool b => simp [cpu_step, hm] at h
      | null => simp [cpu_step, hm] at h
      | arr es => simp [cpu_step, hm] at h
      | obj o => simp [cpu_step, hm] at h
  | num q => exact Except.noConfusion h
  | str s => exact Except.noConfusion h
  | bool b => exact Except.noConfusion h
  | null => exact Except.noConfusion h
  | arr es => exact Except.noConfusion h

/-- The instance loop only succeeds on well-shaped entries whose
configuration leaves all have one key. -/
theorem parse_instances_ok_one (cb : Json → Except Err Json) :
    ∀ (l : List (String × Json)) (acc m : InstMap), parse_instances cb l acc = .ok m →
      (l.all inst_item_one) = true := by
  intro l
  induction l with
  | nil => intro acc m _; rfl
  | cons p rest ih =>
    obtain ⟨it, v⟩ := p
    intro acc m h
    cases v with
    | obj fields =>
      cases hc : alist_lookup fields "cpus" with
      | none => simp [parse_instances, hc] at h
      | some cv =>
        cases cv with
        | arr cpus =>
          cases hf : foldParse (cpu_step cb it) cpus acc with
          | error e => simp [parse_instances, hc, hf] at h
          | ok acc2 =>
            simp only [parse_instances, hc, hf] at h
            rw [List.all_cons, Bool.and_eq_true]
            refine ⟨?_, ih acc2 m h⟩
            simp only [inst_item_one, hc, List.all_eq_true]
            intro q hq
            obtain ⟨kv2, hkv2⟩ := foldParse_ok_step cpus acc acc2 hf q hq
            exact cpu_step_ok_one cb it q kv2 hkv2
        | num q => simp [parse_instances, hc] at h
        | str s => simp [parse_instances, hc] at h
        | bool b => simp [parse_instances, hc] at h
        | null => simp [parse_instances, hc] at h
        | obj o => simp [parse_instances, hc] at h
    | num q => exact Except.noConfusion h
    | str s => exact Except.noConfusion h
    | bool b => exact Except.noConfusion h
    | null => exact Except.noConfusion h
    | arr es => exact Except.noConfusion h

/-- The load pipeline only succeeds on a document that is well-shaped and
whose configuration leaves all have exactly one statistic-kind key. -/
theorem load_ok_one (cb : Json → Except Err Json) (raw : Json) (hk : KernelVersion)
    (gv : String) (m : InstMap) (h : load_baselines cb raw hk gv = .ok m) :
    doc_one raw = true := by
  cases raw with
  | obj kvs =>
    cases hl : alist_lookup kvs "hosts" with
    | none => simp [load_baselines, BaselineParser.init, hl] at h
    | some hv =>
      cases hv with
      | obj host_fields =>
        cases hi : alist_lookup host_fields "instances" with
        | none => simp [load_baselines, BaselineParser.init, hl, hi] at h
        | some inst =>
          simp only [load_baselines, BaselineParser.init, hl, hi,
            BaselineParser._parse_data] at h
          cases inst with
          | obj instances =>
            simp only [doc_one, hl, hi]
            exact parse_instances_ok_one cb instances [] m h
          | num q => exact Except.noConfusion h
          | str s => exact Except.noConfusion h
          | bool b => exact Except.noConfusion h
          | null => exact Except.noConfusion h
          | arr es => exact Except.noConfusion h
      | num q => simp [load_baselines, BaselineParser.init, hl] at h
      | str s => simp [load_baselines, BaselineParser.init, hl] at h
      | bool b => simp [load_baselines, BaselineParser.init, hl] at h
      | null => simp [load_baselines, BaselineParser.init, hl] at h
      | arr es => simp [load_baselines, BaselineParser.init, hl] at h
  | num q => simp [load_baselines, BaselineParser.init] at h
  | str s => simp [load_baselines, BaselineParser.init] at h
  | bool b => simp [load_baselines, BaselineParser.init] at h
  | null => simp [load_baselines, BaselineParser.init] at h
  | arr es => simp [load_baselines, BaselineParser.init] at h

/-- A document that is well-shaped except that its single configuration leaf
carries two statistic-kind keys. -/
def amb_doc : Json :=
  .obj [("hosts", .obj [("instances", .obj [("m5d.metal",
    .obj [("cpus", .arr [.obj [("model", .str model_skylake),
      ("baselines", .obj [("throughput", .obj [("5.10", .obj [("ubuntu-18.04.ext4",
        .obj [("1vcpu_1024mb.json",
          .obj [("unixstream", .obj []), ("tcp", .obj [])])])])])])]])])])])]

/-- A document with an ambiguous (two-key) configuration leaf that is
preceded, in iteration order, by a configuration whose token is unknown. -/
def preempt_doc : Json :=
  .obj [("hosts", .obj [("instances", .obj [("m5d.metal",
    .obj [("cpus", .arr [.obj [("model", .str model_skylake),
      ("baselines", .obj [("throughput", .obj [("5.10", .obj [("ubuntu-18.04.ext4",
        .obj [("weird.json", .obj [("unixstream", .obj [])]),
              ("1vcpu_1024mb.json",
                .obj [("unixstream", .obj []), ("tcp", .obj [])])])])])])]])])])])]

/-- A fully well-formed document with a single one-key configuration leaf. -/
def single_doc : Json :=
  .obj [("hosts", .obj [("instances", .obj [("m5d.metal",
    .obj [("cpus", .arr [dup_cpu 100])])])])]

/-- Claim C3 counterexample: `preempt_doc` contains a configuration leaf with
two statistic-kind keys (`doc_no_amb` is false on it), yet loading it raises
the unknown-token error for the earlier configuration token `"weird.json"`,
not `MalformedBaselineError`. -/
theorem C3_counterexample :
    load_baselines (fun d => .ok d) preempt_doc .KERNEL_5_10 "main"
      = .error (.unknownToken "weird.json")
    ∧ doc_no_amb preempt_doc = false :=
  ⟨rfl, rfl⟩

/-- Claim C3 (amended): a document with the `hosts` key, no ambiguous
configuration leaf, and an extraction callback that never reports the
malformed error, never fails with `MalformedBaselineError`; a load can only
succeed when every configuration leaf has exactly one statistic-kind key (so
a document with an ambiguous leaf never produces a tree — though the error
it aborts with is `MalformedBaselineError` only when the ambiguous leaf is
reached before any other failure, as for the otherwise well-formed
`amb_doc`). -/
theorem C3_stat_kind_amended :
    (∀ cb raw hk gv, (∀ d, cb d ≠ .error .malformedBaseline) →
        hosts_present raw = true → doc_no_amb raw = true →
        load_baselines cb raw hk gv ≠ .error .malformedBaseline)
    ∧ (∀ cb raw hk gv m, load_baselines cb raw hk gv = .ok m → doc_one raw = true)
    ∧ load_baselines (fun d => .ok d) amb_doc .KERNEL_5_10 "main"
        = .error .malformedBaseline :=
  ⟨fun cb raw hk gv hcb hh hna => load_no_mal cb hcb raw hk gv hh hna,
   fun cb raw hk gv m h => load_ok_one cb raw hk gv m h,
   by rfl⟩

/-- Claim C3 witness: the amended theorem applied to concrete documents — the
well-formed `single_doc` does not fail with the malformed error, and a
successful load of it certifies its one-key shape. -/
theorem C3_witness :
    load_baselines (fun d => .ok d) single_doc .KERNEL_5_10 "main"
      ≠ .error .malformedBaseline
    ∧ doc_one single_doc = true :=
  ⟨C3_stat_kind_amended.1 (fun d => .ok d) single_doc .KERNEL_5_10 "main"
      (fun d h => Except.noConfusion h) rfl rfl,
   C3_stat_kind_amended.2.1 (fun d => .ok d) single_doc .KERNEL_5_10 "main"
      [(CpuModel.SKY_LAKE, [(Metric.THROUGHPUT, [(KernelVersion.KERNEL_5_10,
        [(GuestOs.UBUNTU_18_04, [(MachineConfig.VCPU_1_MEM_1G,
          Json.obj [("target", Json.num 100)])])])])])] (by rfl)⟩

/-- Modelled from the spec: the per-leaf percentage formula of the comparator
engine. The comparator module (`utils/comparator.py`) is imported by
`compare_baselines/main.py` but is not among the sources here; the formula is
the specification's: `target_diff_percentage = (comparison.target /
basis.target) * 100` when the basis target is numeric (enforced by the type
here) and non-zero, undefined (`none`) otherwise. -/
def target_diff_percentage (basis comparison : ℚ) : Option ℚ :=
  if basis = 0 then none else some (comparison / basis * 100)

/-- Modelled from the spec: the tolerance-band difference of the comparator
engine, `delta_percentage_diff = comparison.delta_percentage -
basis.delta_percentage` (same missing module). -/
def delta_percentage_diff (basis comparison : ℚ) : ℚ := comparison - basis

/-- The key/baseline-offset pairs over which `output_images.main` iterates:
the rendering step adds 100 under the `target_diff_percentage` key and 0
under the `delta_percentage_diff` key. -/
def output_image_keys : List (String × ℚ) :=
  [("target_diff_percentage", 100), ("delta_percentage_diff", 0)]

/-- Bar height plotted by `output_images.output_images`: the recorded mean
plus the baseline offset passed for the key being rendered. -/
def bar_height (mean base : ℚ) : ℚ := mean + base

/-- Claim C1: the comparison convention reports "no change" as 100, not 0 —
the formula is `(comparison / basis) * 100` whenever the basis is non-zero
(so basis 100 and comparison 105 give 105, and equal targets give 100), and
the rendering step adds a baseline offset of 100 to `target_diff_percentage`
values and 0 to `delta_percentage_diff` values before plotting. -/
theorem C1_comparison_convention :
    (∀ b c : ℚ, b ≠ 0 → target_diff_percentage b c = some (c / b * 100))
    ∧ (∀ b : ℚ, b ≠ 0 → target_diff_percentage b b = some 100)
    ∧ target_diff_percentage 100 105 = some 105
    ∧ delta_percentage_diff 10 12 = 2
    ∧ alist_lookup output_image_keys "target_diff_percentage" = some 100
    ∧ alist_lookup output_image_keys "delta_percentage_diff" = some 0
    ∧ (∀ mean : ℚ, bar_height mean 100 = mean + 100 ∧ bar_height mean 0 = mean) := by
  refine ⟨fun b c hb => ?_, fun b hb => ?_, by norm_num [target_diff_percentage],
    by norm_num [delta_percentage_diff], rfl, rfl, fun mean => ⟨rfl, ?_⟩⟩
  · simp [target_diff_percentage, hb]
  · simp [target_diff_percentage, hb, div_self hb]
  · simp [bar_height]

/-- Claim C1 witness: the formula evaluated at the basis 100 / comparison 105
example and at an equal pair. -/
theorem C1_witness :
    target_diff_percentage 100 105 = some (105 / 100 * 100)
    ∧ target_diff_percentage 2 2 = some 100 :=
  ⟨C1_comparison_convention.1 100 105 (by norm_num),
   C1_comparison_convention.2.1 2 (by norm_num)⟩

/-- Worktree bookkeeping of `cmd_commit` (compare_baselines/main.py): add the
source and target worktrees, construct the `DirectoryComparator` (whose
loading may raise — the outcome is the `load` oracle), remove the two
worktrees, then compare and dump (outcome `cmp_res`). The returned list is
the set of worktrees still on the filesystem when the command ends; an
exception propagates out with no further cleanup, as in Python without
`try`/`finally`. -/
def cmd_commit (source target : String) (load cmp_res : Except Err Unit) :
    Except Err Unit × List String :=
  let w2 : List String := [] ++ [source] ++ [target]
  match load with
  | .error e => (.error e, w2)
  | .ok _ =>
    let w4 := (w2.erase source).erase target
    match cmp_res with
    | .error e => (.error e, w4)
    | .ok _ => (.ok (), w4)

/-- Worktree bookkeeping of `cmd_latest` (compare_baselines/main.py), with a
single worktree for the latest commit hash. -/
def cmd_latest (latest_hash : String) (load cmp_res : Except Err Unit) :
    Except Err Unit × List String :=
  let w1 : List String := [] ++ [latest_hash]
  match load with
  | .error e => (.error e, w1)
  | .ok _ =>
    let w2 := w1.erase latest_hash
    match cmp_res with
    | .error e => (.error e, w2)
    | .ok _ => (.ok (), w2)

/-- Worktree bookkeeping of the `GitWorktree` context manager
(git_worktree.py): `__enter__` adds the worktree, the body runs, and
`__exit__` removes it whether the body returned or raised. -/
def GitWorktree.with_scope {α : Type} (hash : String)
    (body : List String → Except Err α × List String) (wts : List String) :
    Except Err α × List String :=
  let r := body (wts ++ [hash])
  (r.1, r.2.erase hash)

/-- Claim C7: when loading raises inside `cmd_commit` (between `git worktree
add` and `git worktree remove`), both worktrees are left on the filesystem;
the same holds for `cmd_latest`'s single worktree. Cleanup happens only on
the success path. The `GitWorktree` scope, by contrast, removes its worktree
on every path. -/
theorem C7_worktree_leak :
    (cmd_commit "src_rev" "tgt_rev" (.error .malformedBaseline) (.ok ())).2
      = ["src_rev", "tgt_rev"]
    ∧ (cmd_commit "src_rev" "tgt_rev" (.ok ()) (.ok ())).2 = []
    ∧ (cmd_latest "abc123" (.error .malformedBaseline) (.ok ())).2 = ["abc123"]
    ∧ (∀ (α : Type) (hash : String) (body : List String → Except Err α × List String)
        (wts : List String),
        (GitWorktree.with_scope hash body wts).2 = ((body (wts ++ [hash])).2).erase hash) :=
  ⟨rfl, rfl, rfl, fun _ _ _ _ => rfl⟩
